import Mathlib

/-!
Verification of the QR-label generator core (`src/main.py`) against its
natural-language specification.

The embedding models the three pipeline stages of the repository:
`DataProcessor.validate_excel` (record normalisation), the payload
construction and QR rendering of `QRGenerator.generate_qr_concatenated`,
and the per-record element assembly of `PDFGenerator.generate_pdf`.
Records after normalisation are ordered string-keyed mappings, modelled
as association lists; `dict.get` is lookup of the first matching key.
External library services (pandas parsing, the qrcode encoder, the
reportlab layout engine) are modelled at the well-defined boundary the
code invokes them with: the qrcode capacity check follows the library's
documented overflow behaviour, and pagination is driven by the explicit
`PageBreak` flowables the code emits.
-/

/-- A normalised record: an ordered mapping from field name to string value
(a Python dict after every value has been coerced to `str`). -/
def Rec : Type := List (String × String)

instance : DecidableEq Rec := by unfold Rec; infer_instance

/-- Lookup of a key in a record, `none` when absent (Python `field in record`
/ `record[field]` on the `some` side). -/
def lookup? (record : Rec) (field : String) : Option String :=
  (record.find? (fun kv => kv.1 == field)).map (fun kv => kv.2)

/-- Python `str(record.get(field, ''))`: the value when present, `""` when
absent (values are already strings after normalisation). -/
def getStr (record : Rec) (field : String) : String :=
  (lookup? record field).getD ""

/-- The payload string built at `src/main.py:52-55`:
`concatenated_data = "AR-QR" + separator`, then for each selected field
`concatenated_data += str(record.get(field, '')) + separator`. -/
def concatenated_data (record : Rec) (selected_fields : List String)
    (separator : String) : String :=
  selected_fields.foldl
    (fun acc field => acc ++ getStr record field ++ separator)
    ("AR-QR" ++ separator)

/-- Modelled from the spec: the capacity of the chosen symbology at the
configured low-redundancy error-correction level (QR version 40, level L,
byte mode: 2953 bytes).  The check itself lives in the external qrcode
library: `qr.make(fit=True)` auto-sizes the version and raises
`DataOverflowError` when even the largest version cannot hold the data. -/
def QR_CAPACITY_BYTES_L : Nat := 2953

/-- The rendered code image, abstracted: the payload it encodes plus the
fixed rendering parameters of `src/main.py:58-67`. -/
structure QRImage where
  payload : String
  boxSize : Nat
  border : Nat
  deriving DecidableEq

/-- `QRGenerator.generate_qr_concatenated` (`src/main.py:47-75`): builds the
concatenated payload, renders it as a QR image at error-correction L, and
returns the image together with the literal payload string.  Raising
`DataOverflowError` in the library is modelled as an `Except.error`. -/
def generate_qr_concatenated (record : Rec) (selected_fields : List String)
    (separator : String) (box_size : Nat) : Except String (QRImage × String) :=
  let d := concatenated_data record selected_fields separator
  if d.utf8ByteSize ≤ QR_CAPACITY_BYTES_L then
    .ok ({ payload := d, boxSize := box_size, border := 4 }, d)
  else
    .error "DataOverflowError"

/-- Whether the QR rendering of a record succeeds with the parameters
`generate_pdf` uses (separator `"|"`, box size 10). -/
def qrOk (record : Rec) (selected_fields : List String) : Bool :=
  (concatenated_data record selected_fields "|").utf8ByteSize ≤ QR_CAPACITY_BYTES_L

/-- Split a list on a separator element; a terminating separator yields a
trailing empty chunk.  Used to read the separator-delimited segments off a
payload and the page chunks off an element list. -/
def splitSep {α : Type} [DecidableEq α] (sep : α) : List α → List (List α)
  | [] => [[]]
  | a :: as =>
    if a = sep then [] :: splitSep sep as
    else
      match splitSep sep as with
      | [] => [[a]]
      | s :: ss => (a :: s) :: ss

/-- The separator-delimited segments of a payload string, the terminating
empty chunk produced by the trailing separator dropped. -/
def payloadSegments (s : String) (sep : Char) : List (List Char) :=
  (splitSep sep s.data).dropLast

/-- The worked example record of the spec. -/
def exampleRecord : Rec :=
  [("WOCO", "1001"), ("ID", "14X00.004"), ("LOTE", "241105-9246"), ("PESO Kg", "50")]

-- Record normalisation (`DataProcessor.validate_excel`, src/main.py:18-41).

/-- A raw spreadsheet cell before normalisation: values may still be typed
(pandas reads numbers as numbers); `astype(str)` coerces to their string
form.  Already-string cells stay unchanged. -/
inductive Cell where
  | s (v : String)
  | i (v : Int)
  deriving DecidableEq

/-- Python `str` on a cell value. -/
def Cell.toStr : Cell → String
  | .s v => v
  | .i v => toString v

/-- The tabular source as pandas hands it over: a header list and one cell
list per row (each row has one cell per column). -/
structure DataFrame where
  columns : List String
  rows : List (List Cell)
  deriving DecidableEq

/-- The fixed required marker columns of `validate_excel`. -/
def required_columns : List String := ["WOCO"]

/-- String coercion of a whole frame: `df[col] = df[col].astype(str)` over
every column, expressed row-wise. -/
def coerceRows (rows : List (List Cell)) : List (List Cell) :=
  rows.map (fun row => row.map (fun c => Cell.s c.toStr))

/-- `DataProcessor.validate_excel` after the external parse: rejects an
empty frame, then a frame missing a required column, otherwise coerces
every cell to its string form and reports success.  The Python returns the
triple `(is_valid, message, df-or-None)`. -/
def validate_excel (df : DataFrame) : Bool × String × Option DataFrame :=
  if df.rows.isEmpty then
    (false, "El archivo Excel no contiene datos", none)
  else if (required_columns.filter (fun col => ! df.columns.contains col)).isEmpty then
    (true, "Archivo validado correctamente", some ⟨df.columns, coerceRows df.rows⟩)
  else
    (false,
      "Faltan las siguientes columnas: "
        ++ String.intercalate ", "
          (required_columns.filter (fun col => ! df.columns.contains col)),
      none)

-- Label assembly (`PDFGenerator.generate_pdf`, src/main.py:100-189).

/-- The reportlab flowables the assembler appends, abstracted to what they
carry: titles, spacers, the QR image (by its payload), the attribute table
(by its rows), the payload footnote, and page breaks.  Fixed styling (cm
sizes, fonts, colours) is layout configuration with no bearing on the
claims. -/
inductive Element where
  | title (text : String)
  | spacer
  | qrImage (payload : String)
  | table (rows : List (String × String))
  | qrNote (payload : String)
  | pageBreak
  deriving DecidableEq

def Element.isBreak : Element → Bool
  | .pageBreak => true
  | _ => false

/-- Python `str.capitalize`: first character upper-cased, the rest
lower-cased. -/
def pyCapitalize (s : String) : String :=
  match s.data with
  | [] => ""
  | c :: cs => String.mk (c.toUpper :: cs.map Char.toLower)

/-- The bold label markup of one table row (src/main.py:138 and 145). -/
def rowLabel (field : String) : String :=
  "<b>" ++ pyCapitalize field ++ "</b>:"

/-- The attribute-table rows of one record (src/main.py:134-147): first the
selected fields present in the record in selection order, then the
remaining record fields that are neither selected nor the reserved
`nombre` field, in record order. -/
def tableRows (record : Rec) (selected_fields : List String) :
    List (String × String) :=
  selected_fields.filterMap
    (fun field => (lookup? record field).map (fun v => (rowLabel field, v)))
  ++ (record.filter
        (fun kv => ! selected_fields.contains kv.1 && kv.1 != "nombre")).map
      (fun kv => (rowLabel kv.1, kv.2))

/-- The elements appended for one record before the fallible QR call: the
optional title and the first spacer (src/main.py:119-124).  When the QR
call raises, these stay in the shared `elements` list. -/
def preQRElems (record : Rec) : List Element :=
  (if (lookup? record "nombre").isSome
   then [Element.title (getStr record "nombre")] else [])
  ++ [Element.spacer]

/-- The full element run of one successfully processed record, page break
not included (src/main.py:119-171): title?, spacer, QR image, spacer,
table unless empty, spacer, payload footnote. -/
def successPage (record : Rec) (selected_fields : List String) : List Element :=
  preQRElems record
  ++ [Element.qrImage (concatenated_data record selected_fields "|"), Element.spacer]
  ++ (if tableRows record selected_fields = [] then []
      else [Element.table (tableRows record selected_fields)])
  ++ [Element.spacer, Element.qrNote (concatenated_data record selected_fields "|")]

/-- One iteration of the per-record loop with its try/except
(src/main.py:116-179): on success the full run plus a page break when the
record is not the last; when the QR call raises, only the elements already
appended stay and the loop moves on. -/
def processRecord (selected_fields : List String) (isLast : Bool) (record : Rec) :
    List Element :=
  match generate_qr_concatenated record selected_fields "|" 10 with
  | .error _ => preQRElems record
  | .ok _ =>
      successPage record selected_fields
        ++ (if isLast then [] else [Element.pageBreak])

/-- The element list accumulated over all records; `i < len(records) - 1`
decides the page break, i.e. only the final record is last. -/
def buildElements (selected_fields : List String) : List Rec → List Element
  | [] => []
  | [record] => processRecord selected_fields true record
  | record :: next :: rest =>
      processRecord selected_fields false record
        ++ buildElements selected_fields (next :: rest)

/-- `PDFGenerator.generate_pdf` (src/main.py:100-189): accumulates the
elements and hands them to the external layout engine (`doc.build`); a
build failure is re-raised to the caller, success returns the buffer. -/
def generate_pdf {π : Type} (build : List Element → Except String π)
    (records : List Rec) (selected_fields : List String) : Except String π :=
  match build (buildElements selected_fields records) with
  | .error e => .error e
  | .ok buf => .ok buf

/-- Page count of the built artifact: the engine opens a page for the first
flowable and each `PageBreak` starts the next; the element lists built
above never end in a page break, so no trailing blank page arises. -/
def numPages (elements : List Element) : Nat :=
  if elements.isEmpty then 0 else elements.countP Element.isBreak + 1

-- An oversized record: its payload exceeds the symbology capacity at level L.

def bigValue : String := String.mk (List.replicate 2947 'a')

def badRecord : Rec := [("X", bigValue)]

def goodRecord : Rec := [("WOCO", "1")]

-- Attribute-table ordering.

def exampleRecordC8 : Rec :=
  [("A", "1"), ("B", "2"), ("C", "3"), ("D", "4"), ("nombre", "X")]

-- Structural helpers: the payload is the fixed tag, the separator, then each
-- selected value followed by the separator.

theorem string_join_cons (s : String) (l : List String) :
    String.join (s :: l) = s ++ String.join l := by
  apply String.ext
  simp

theorem concatenated_data_foldl_general (record : Rec) (separator : String) :
    ∀ (fields : List String) (acc : String),
      fields.foldl (fun a f => a ++ getStr record f ++ separator) acc
        = acc ++ String.join (fields.map (fun f => getStr record f ++ separator)) := by
  intro fields
  induction fields with
  | nil => intro acc; simp [String.join]
  | cons f fs ih =>
    intro acc
    simp only [List.foldl_cons, List.map_cons]
    rw [string_join_cons, ih]
    simp [String.append_assoc]

theorem concatenated_data_eq (record : Rec) (selected_fields : List String)
    (separator : String) :
    concatenated_data record selected_fields separator
      = "AR-QR" ++ separator
        ++ String.join (selected_fields.map (fun f => getStr record f ++ separator)) := by
  unfold concatenated_data
  rw [concatenated_data_foldl_general]

/-- C1: for every record and selection the payload is the fixed tag
`"AR-QR"`, the separator, then each selected field's value (empty when
absent) followed by the separator; on the spec's example record with
selection `[ID, LOTE, PESO Kg]` it is `"AR-QR|14X00.004|241105-9246|50|"`. -/
theorem payload_structure_and_example :
    (∀ (record : Rec) (selected_fields : List String) (separator : String),
      concatenated_data record selected_fields separator
        = "AR-QR" ++ separator
          ++ String.join (selected_fields.map (fun f => getStr record f ++ separator)))
    ∧ concatenated_data exampleRecord ["ID", "LOTE", "PESO Kg"] "|"
        = "AR-QR|14X00.004|241105-9246|50|" := by
  constructor
  · intro record selected_fields separator
    exact concatenated_data_eq record selected_fields separator
  · rfl

-- Splitting lemmas used to read segments back off separator-terminated data.

theorem splitSep_not_mem {α : Type} [DecidableEq α] (sep : α) :
    ∀ (xs : List α), sep ∉ xs → splitSep sep xs = [xs] := by
  intro xs
  induction xs with
  | nil => intro _; rfl
  | cons a as ih =>
    intro h
    have ha : a ≠ sep := fun e => h (by simp [e])
    have has : sep ∉ as := fun e => h (List.mem_cons_of_mem a e)
    simp only [splitSep, if_neg ha, ih has]

theorem splitSep_append_cons {α : Type} [DecidableEq α] (sep : α) :
    ∀ (xs ys : List α), sep ∉ xs →
      splitSep sep (xs ++ sep :: ys) = xs :: splitSep sep ys := by
  intro xs
  induction xs with
  | nil =>
    intro ys _
    simp [splitSep]
  | cons a as ih =>
    intro ys h
    have ha : a ≠ sep := fun e => h (by simp [e])
    have has : sep ∉ as := fun e => h (List.mem_cons_of_mem a e)
    show splitSep sep (a :: (as ++ sep :: ys)) = (a :: as) :: splitSep sep ys
    simp only [splitSep, if_neg ha]
    rw [ih ys has]

theorem splitSep_flatten_terminated {α : Type} [DecidableEq α] (sep : α) :
    ∀ (ls : List (List α)), (∀ l ∈ ls, sep ∉ l) →
      splitSep sep ((ls.map (fun l => l ++ [sep])).flatten) = ls ++ [[]] := by
  intro ls
  induction ls with
  | nil => intro _; rfl
  | cons l ls ih =>
    intro h
    have hl : sep ∉ l := h l (List.mem_cons_self l ls)
    have hls : ∀ x ∈ ls, sep ∉ x := fun x hx => h x (List.mem_cons_of_mem l hx)
    simp only [List.map_cons, List.flatten_cons, List.append_assoc, List.singleton_append]
    rw [splitSep_append_cons sep l _ hl, ih hls]
    rfl

theorem concatenated_data_data (record : Rec) (selected_fields : List String) :
    (concatenated_data record selected_fields "|").data
      = "AR-QR".data ++ '|'
        :: ((selected_fields.map (fun f => (getStr record f).data ++ ['|'])).flatten) := by
  rw [concatenated_data_eq]
  simp only [String.data_append, String.data_join, List.map_map]
  have : ∀ f : String,
      ((fun f => getStr record f ++ "|") f).data = (getStr record f).data ++ ['|'] := by
    intro f; simp [String.data_append]
  simp only [Function.comp_def, this]
  rfl

/-- C2: when no selected value contains the separator (the data-model
invariant of the spec), the separator-delimited segments of the payload are
exactly the fixed prefix segment followed by one segment per selected
field in selection order; the segment count is the selection length plus
one, and a field absent from the record contributes the empty segment at
its preserved position. -/
theorem payload_segment_structure (record : Rec) (selected_fields : List String)
    (h : ∀ f ∈ selected_fields, '|' ∉ (getStr record f).data) :
    payloadSegments (concatenated_data record selected_fields "|") '|'
        = "AR-QR".data :: selected_fields.map (fun f => (getStr record f).data)
      ∧ (payloadSegments (concatenated_data record selected_fields "|") '|').length
          = selected_fields.length + 1
      ∧ ∀ f ∈ selected_fields, lookup? record f = none → getStr record f = "" := by
  have hseg :
      payloadSegments (concatenated_data record selected_fields "|") '|'
        = "AR-QR".data :: selected_fields.map (fun f => (getStr record f).data) := by
    unfold payloadSegments
    rw [concatenated_data_data]
    have hpre : '|' ∉ "AR-QR".data := by decide
    rw [splitSep_append_cons '|' _ _ hpre]
    have hall : ∀ l ∈ selected_fields.map (fun f => (getStr record f).data), '|' ∉ l := by
      intro l hl
      rcases List.mem_map.mp hl with ⟨f, hf, rfl⟩
      exact h f hf
    have := splitSep_flatten_terminated '|'
      (selected_fields.map (fun f => (getStr record f).data)) hall
    rw [List.map_map] at this
    simp only [Function.comp_def] at this
    rw [this]
    rw [show ("AR-QR".data :: (selected_fields.map (fun f => (getStr record f).data) ++ [[]]))
          = ("AR-QR".data :: selected_fields.map (fun f => (getStr record f).data)) ++ [[]]
        from rfl]
    exact List.dropLast_concat
  refine ⟨hseg, ?_, ?_⟩
  · rw [hseg]; simp
  · intro f _ hnone
    simp [getStr, hnone]

/-- C10: the payload depends only on the selected fields' lookups — two
records that agree on presence and value of every selected field produce
identical payload strings, whatever other fields they carry. -/
theorem payload_noninterference (r₁ r₂ : Rec) (selected_fields : List String)
    (separator : String)
    (h : ∀ f ∈ selected_fields, lookup? r₁ f = lookup? r₂ f) :
    concatenated_data r₁ selected_fields separator
      = concatenated_data r₂ selected_fields separator := by
  rw [concatenated_data_eq, concatenated_data_eq]
  have : selected_fields.map (fun f => getStr r₁ f ++ separator)
      = selected_fields.map (fun f => getStr r₂ f ++ separator) := by
    apply List.map_congr_left
    intro f hf
    unfold getStr
    rw [h f hf]
  rw [this]

-- Concrete instantiations discharging the hypotheses above.

theorem payload_segment_structure_witness :
    (∀ f ∈ ["ID", "MISSING"], '|' ∉ (getStr exampleRecord f).data)
    ∧ payloadSegments (concatenated_data exampleRecord ["ID", "MISSING"] "|") '|'
        = "AR-QR".data :: ["ID", "MISSING"].map (fun f => (getStr exampleRecord f).data) := by
  refine ⟨by decide, ?_⟩
  exact (payload_segment_structure exampleRecord ["ID", "MISSING"] (by decide)).1

theorem payload_noninterference_witness :
    (∀ f ∈ ["ID"], lookup? [("ID", "x"), ("EXTRA", "zzz")] f = lookup? [("ID", "x")] f)
    ∧ concatenated_data [("ID", "x"), ("EXTRA", "zzz")] ["ID"] "|"
        = concatenated_data [("ID", "x")] ["ID"] "|" := by
  refine ⟨by decide, ?_⟩
  exact payload_noninterference [("ID", "x"), ("EXTRA", "zzz")] [("ID", "x")] ["ID"] "|"
    (by decide)

/-- C4: a source with zero rows, or whose header set lacks the required
marker column `WOCO`, makes `validate_excel` report failure and hand back
no data frame at all — nothing downstream can produce an artifact from it. -/
theorem validate_excel_rejects (df : DataFrame)
    (h : df.rows = [] ∨ "WOCO" ∉ df.columns) :
    (validate_excel df).1 = false ∧ (validate_excel df).2.2 = none := by
  unfold validate_excel
  by_cases hrows : df.rows.isEmpty = true
  · rw [if_pos hrows]
    exact ⟨rfl, rfl⟩
  · rcases h with h | h
    · exact absurd (by simp [h]) hrows
    · have hc : df.columns.contains "WOCO" = false := by
        simpa using h
      have hmiss : (required_columns.filter (fun col => ! df.columns.contains col)).isEmpty
          = false := by
        simp [required_columns, List.filter, h]
      have hne : ¬ ((required_columns.filter (fun col => ! df.columns.contains col)).isEmpty
          = true) := by
        simp only [List.isEmpty_eq_true]
        simp [required_columns, h]
      rw [if_neg hrows, if_neg hne]
      exact ⟨rfl, rfl⟩

theorem validate_excel_rejects_witness :
    ((⟨["WOCO"], []⟩ : DataFrame).rows = []
        ∨ "WOCO" ∉ (⟨["WOCO"], []⟩ : DataFrame).columns)
    ∧ (validate_excel ⟨["WOCO"], []⟩).1 = false
    ∧ (validate_excel ⟨["WOCO"], []⟩).2.2 = none := by
  refine ⟨Or.inl rfl, ?_⟩
  exact validate_excel_rejects ⟨["WOCO"], []⟩ (Or.inl rfl)

/-- C9: on success, `validate_excel` returns the same header list and the
same rows in the same order, every cell replaced by its string coercion
(so every cell of the result is string-typed); nothing else changes. -/
theorem validate_excel_success_normalises (df : DataFrame) (m : String)
    (df' : DataFrame) (h : validate_excel df = (true, m, some df')) :
    df'.columns = df.columns
    ∧ df'.rows = df.rows.map (fun row => row.map (fun c => Cell.s c.toStr))
    ∧ ∀ row ∈ df'.rows, ∀ c ∈ row, ∃ v, c = Cell.s v := by
  unfold validate_excel at h
  by_cases hrows : df.rows.isEmpty = true
  · rw [if_pos hrows] at h
    simp at h
  · rw [if_neg hrows] at h
    by_cases hmiss :
        (required_columns.filter (fun col => ! df.columns.contains col)).isEmpty = true
    · rw [if_pos hmiss] at h
      injection h with h1 h2
      injection h2 with h2 h3
      injection h3 with h4
      subst h4
      refine ⟨rfl, rfl, ?_⟩
      intro row hrow c hc
      rcases List.mem_map.mp hrow with ⟨row₀, _, rfl⟩
      rcases List.mem_map.mp hc with ⟨c₀, _, rfl⟩
      exact ⟨c₀.toStr, rfl⟩
    · rw [if_neg hmiss] at h
      simp at h

theorem validate_excel_success_normalises_witness :
    validate_excel ⟨["WOCO"], [[Cell.i 1001]]⟩
        = (true, "Archivo validado correctamente", some ⟨["WOCO"], [[Cell.s "1001"]]⟩)
    ∧ (⟨["WOCO"], [[Cell.s "1001"]]⟩ : DataFrame).rows
        = (⟨["WOCO"], [[Cell.i 1001]]⟩ : DataFrame).rows.map
            (fun row => row.map (fun c => Cell.s c.toStr)) := by
  refine ⟨by decide, ?_⟩
  exact (validate_excel_success_normalises ⟨["WOCO"], [[Cell.i 1001]]⟩
    "Archivo validado correctamente" ⟨["WOCO"], [[Cell.s "1001"]]⟩ (by decide)).2.1

-- Behaviour of one loop iteration depending on the QR outcome.

theorem processRecord_ok (selected_fields : List String) (isLast : Bool)
    (record : Rec) (h : qrOk record selected_fields = true) :
    processRecord selected_fields isLast record
      = successPage record selected_fields
        ++ (if isLast then [] else [Element.pageBreak]) := by
  have hle : (concatenated_data record selected_fields "|").utf8ByteSize
      ≤ QR_CAPACITY_BYTES_L := by
    have := of_decide_eq_true h
    exact this
  unfold processRecord generate_qr_concatenated
  rw [if_pos hle]

theorem processRecord_err (selected_fields : List String) (isLast : Bool)
    (record : Rec) (h : qrOk record selected_fields = false) :
    processRecord selected_fields isLast record = preQRElems record := by
  have hgt : ¬ (concatenated_data record selected_fields "|").utf8ByteSize
      ≤ QR_CAPACITY_BYTES_L := by
    intro hle
    rw [show qrOk record selected_fields = decide
      ((concatenated_data record selected_fields "|").utf8ByteSize
        ≤ QR_CAPACITY_BYTES_L) from rfl] at h
    exact absurd (decide_eq_true hle) (by simp [h])
  unfold processRecord generate_qr_concatenated
  rw [if_neg hgt]

theorem preQRElems_ne_nil (record : Rec) : preQRElems record ≠ [] := by
  unfold preQRElems
  by_cases h : (lookup? record "nombre").isSome <;> simp [h]

theorem preQRElems_no_break (record : Rec) : Element.pageBreak ∉ preQRElems record := by
  unfold preQRElems
  by_cases h : (lookup? record "nombre").isSome <;> simp [h]

theorem successPage_no_break (record : Rec) (selected_fields : List String) :
    Element.pageBreak ∉ successPage record selected_fields := by
  unfold successPage preQRElems
  by_cases h1 : (lookup? record "nombre").isSome <;>
    by_cases h2 : tableRows record selected_fields = [] <;>
      simp [h1, h2]

theorem successPage_ne_nil (record : Rec) (selected_fields : List String) :
    successPage record selected_fields ≠ [] := by
  unfold successPage preQRElems
  by_cases h1 : (lookup? record "nombre").isSome <;>
    by_cases h2 : tableRows record selected_fields = [] <;>
      simp [h1, h2]

theorem processRecord_ne_nil (selected_fields : List String) (isLast : Bool)
    (record : Rec) : processRecord selected_fields isLast record ≠ [] := by
  by_cases h : qrOk record selected_fields = true
  · rw [processRecord_ok selected_fields isLast record h]
    have := successPage_ne_nil record selected_fields
    intro hc
    rcases List.append_eq_nil.mp hc with ⟨h1, _⟩
    exact this h1
  · rw [processRecord_err selected_fields isLast record (by simpa using h)]
    exact preQRElems_ne_nil record

-- Page structure of the accumulated element list.

theorem splitSep_ne_nil {α : Type} [DecidableEq α] (sep : α) :
    ∀ (l : List α), splitSep sep l ≠ [] := by
  intro l
  induction l with
  | nil => simp [splitSep]
  | cons a as ih =>
    by_cases h : a = sep
    · simp [splitSep, h]
    · cases hs : splitSep sep as with
      | nil => exact absurd hs ih
      | cons s ss => simp [splitSep, h, hs]

theorem isBreak_eq_decide (e : Element) :
    Element.isBreak e = decide (e = Element.pageBreak) := by
  cases e <;> simp [Element.isBreak]

theorem splitSep_length {α : Type} [DecidableEq α] (sep : α) :
    ∀ (l : List α),
      (splitSep sep l).length = l.countP (fun a => decide (a = sep)) + 1 := by
  intro l
  induction l with
  | nil => rfl
  | cons a as ih =>
    by_cases h : a = sep
    · simp [splitSep, h, List.countP_cons, ih]
    · cases hs : splitSep sep as with
      | nil => exact absurd hs (splitSep_ne_nil sep as)
      | cons s ss =>
        simp only [splitSep, if_neg h, hs]
        rw [hs] at ih
        simpa [List.countP_cons, h] using ih

theorem buildElements_cons_cons (selected_fields : List String) (record next : Rec)
    (rest : List Rec) :
    buildElements selected_fields (record :: next :: rest)
      = processRecord selected_fields false record
        ++ buildElements selected_fields (next :: rest) := rfl

theorem buildElements_append (selected_fields : List String) :
    ∀ (pre rest : List Rec), rest ≠ [] →
      buildElements selected_fields (pre ++ rest)
        = (pre.map (processRecord selected_fields false)).flatten
          ++ buildElements selected_fields rest := by
  intro pre
  induction pre with
  | nil => intro rest _; simp
  | cons r pre ih =>
    intro rest hne
    cases hpr : pre ++ rest with
    | nil =>
      rcases List.append_eq_nil.mp hpr with ⟨-, h2⟩
      exact absurd h2 hne
    | cons x xs =>
      have : buildElements selected_fields ((r :: pre) ++ rest)
          = processRecord selected_fields false r
            ++ buildElements selected_fields (pre ++ rest) := by
        rw [List.cons_append, hpr]
        exact buildElements_cons_cons selected_fields r x xs
      rw [this, ih rest hne]
      simp [List.append_assoc]

theorem buildElements_ok_split (selected_fields : List String) :
    ∀ (records : List Rec), records ≠ [] →
      (∀ r ∈ records, qrOk r selected_fields = true) →
      splitSep Element.pageBreak (buildElements selected_fields records)
        = records.map (fun r => successPage r selected_fields) := by
  intro records
  induction records with
  | nil => intro h _; exact absurd rfl h
  | cons r rs ih =>
    intro _ hok
    have hr : qrOk r selected_fields = true := hok r (List.mem_cons_self r rs)
    cases rs with
    | nil =>
      show splitSep Element.pageBreak (processRecord selected_fields true r) = _
      rw [processRecord_ok selected_fields true r hr]
      simpa using
        splitSep_not_mem Element.pageBreak _ (successPage_no_break r selected_fields)
    | cons next rest =>
      rw [buildElements_cons_cons, processRecord_ok selected_fields false r hr]
      have hstep : (successPage r selected_fields
            ++ (if false = true then [] else [Element.pageBreak]))
            ++ buildElements selected_fields (next :: rest)
          = successPage r selected_fields
            ++ Element.pageBreak :: buildElements selected_fields (next :: rest) := by
        simp
      rw [hstep,
        splitSep_append_cons Element.pageBreak _ _ (successPage_no_break r selected_fields),
        ih (List.cons_ne_nil next rest)
          (fun x hx => hok x (List.mem_cons_of_mem r hx))]
      rfl

theorem buildElements_ne_nil (selected_fields : List String) :
    ∀ (records : List Rec), records ≠ [] →
      buildElements selected_fields records ≠ [] := by
  intro records
  cases records with
  | nil => intro h; exact absurd rfl h
  | cons r rs =>
    intro _
    cases rs with
    | nil => exact processRecord_ne_nil selected_fields true r
    | cons next rest =>
      rw [buildElements_cons_cons]
      intro hc
      rcases List.append_eq_nil.mp hc with ⟨h1, -⟩
      exact processRecord_ne_nil selected_fields false r h1

theorem buildElements_ok_count (selected_fields : List String) (records : List Rec)
    (hne : records ≠ []) (hok : ∀ r ∈ records, qrOk r selected_fields = true) :
    (buildElements selected_fields records).countP Element.isBreak
      = records.length - 1 := by
  have hsplit := buildElements_ok_split selected_fields records hne hok
  have hlen := congrArg List.length hsplit
  rw [splitSep_length] at hlen
  simp only [List.length_map] at hlen
  have hcongr : (buildElements selected_fields records).countP Element.isBreak
      = (buildElements selected_fields records).countP
          (fun a => decide (a = Element.pageBreak)) := by
    apply List.countP_congr
    intro a _
    rw [isBreak_eq_decide]
  omega

/-- C7: with every record rendering successfully, the page chunks of the
element list are exactly one `successPage` per record in input order, there
are N−1 page breaks, and the artifact has N pages. -/
theorem page_count_invariant (records : List Rec) (selected_fields : List String)
    (hne : records ≠ [])
    (hok : ∀ r ∈ records, qrOk r selected_fields = true) :
    splitSep Element.pageBreak (buildElements selected_fields records)
        = records.map (fun r => successPage r selected_fields)
    ∧ (buildElements selected_fields records).countP Element.isBreak
        = records.length - 1
    ∧ numPages (buildElements selected_fields records) = records.length := by
  refine ⟨buildElements_ok_split selected_fields records hne hok,
    buildElements_ok_count selected_fields records hne hok, ?_⟩
  unfold numPages
  rw [if_neg (by simpa using buildElements_ne_nil selected_fields records hne)]
  rw [buildElements_ok_count selected_fields records hne hok]
  cases records with
  | nil => exact absurd rfl hne
  | cons r rs => simp

theorem page_count_invariant_witness :
    ([[("nombre", "A")], [("ID", "1")]] ≠ ([] : List Rec))
    ∧ numPages (buildElements ["ID"] [[("nombre", "A")], [("ID", "1")]]) = 2 := by
  refine ⟨by simp, ?_⟩
  exact (page_count_invariant [[("nombre", "A")], [("ID", "1")]] ["ID"]
    (by simp) (by decide)).2.2

theorem utf8Len_replicate (c : Char) :
    ∀ n : Nat, String.utf8Len (List.replicate n c) = n * c.utf8Size := by
  intro n
  induction n with
  | zero => simp
  | succ n ih =>
    rw [List.replicate_succ, String.utf8Len_cons, ih, Nat.succ_mul]

theorem utf8ByteSize_append (a b : String) :
    (a ++ b).utf8ByteSize = a.utf8ByteSize + b.utf8ByteSize := by
  cases a with
  | mk d₁ =>
    cases b with
    | mk d₂ =>
      show (String.mk (d₁ ++ d₂)).utf8ByteSize = _
      simp [String.utf8ByteSize_mk]

theorem badPayload_size :
    (concatenated_data badRecord ["X"] "|").utf8ByteSize = 2954 := by
  have hp : concatenated_data badRecord ["X"] "|"
      = (("AR-QR" ++ "|") ++ bigValue) ++ "|" := rfl
  rw [hp, utf8ByteSize_append, utf8ByteSize_append]
  have hbig : bigValue.utf8ByteSize = 2947 := by
    show (String.mk (List.replicate 2947 'a')).utf8ByteSize = 2947
    rw [String.utf8ByteSize_mk, utf8Len_replicate]
    rfl
  rw [hbig]
  rfl

theorem badRecord_qr_fails : qrOk badRecord ["X"] = false := by
  unfold qrOk
  rw [badPayload_size]
  rfl

-- Break counting over element runs.

theorem break_count_zero (l : List Element) (h : Element.pageBreak ∉ l) :
    l.countP Element.isBreak = 0 := by
  apply List.countP_eq_zero.mpr
  intro a ha hpa
  have he : a = Element.pageBreak := by
    cases a <;> first | rfl | simp [Element.isBreak] at hpa
  exact h (he ▸ ha)

theorem flatten_pre_count (selected_fields : List String) :
    ∀ (pre : List Rec), (∀ r ∈ pre, qrOk r selected_fields = true) →
      ((pre.map (processRecord selected_fields false)).flatten).countP Element.isBreak
        = pre.length := by
  intro pre
  induction pre with
  | nil => intro _; rfl
  | cons r rs ih =>
    intro h
    have hr := h r (List.mem_cons_self r rs)
    simp only [List.map_cons, List.flatten_cons, List.countP_append]
    rw [ih (fun x hx => h x (List.mem_cons_of_mem r hx)),
      processRecord_ok selected_fields false r hr, List.countP_append,
      break_count_zero _ (successPage_no_break r selected_fields)]
    simp [Element.isBreak, List.countP_cons]
    omega

theorem preQR_break_count (record : Rec) :
    (preQRElems record).countP Element.isBreak = 0 :=
  break_count_zero _ (preQRElems_no_break record)

theorem single_failure_count (selected_fields : List String) (pre post : List Rec)
    (bad : Rec)
    (hpre : ∀ r ∈ pre, qrOk r selected_fields = true)
    (hpost : ∀ r ∈ post, qrOk r selected_fields = true)
    (hbad : qrOk bad selected_fields = false) :
    (buildElements selected_fields (pre ++ bad :: post)).countP Element.isBreak
      = pre.length + (if post.isEmpty then 0 else post.length - 1) := by
  rw [buildElements_append selected_fields pre (bad :: post) (List.cons_ne_nil bad post),
    List.countP_append, flatten_pre_count selected_fields pre hpre]
  cases post with
  | nil =>
    have : buildElements selected_fields [bad] = preQRElems bad := by
      show processRecord selected_fields true bad = preQRElems bad
      exact processRecord_err selected_fields true bad hbad
    rw [this, preQR_break_count]
    simp
  | cons p ps =>
    rw [show buildElements selected_fields (bad :: p :: ps)
        = processRecord selected_fields false bad
          ++ buildElements selected_fields (p :: ps)
      from buildElements_cons_cons selected_fields bad p ps]
    rw [List.countP_append, processRecord_err selected_fields false bad hbad,
      preQR_break_count,
      buildElements_ok_count selected_fields (p :: ps) (List.cons_ne_nil p ps) hpost]
    simp

/-- C3 (amended): when exactly one record raises during per-record
processing, the elements already appended for it before the failure point
(the optional title and a spacer) are not dropped — they stay in the
output, merging into the following record's page — processing continues,
and the artifact has N−1 pages only when the failing record is not the
last; when it is the last, the leftover elements sit after the final page
break and the artifact has N pages. -/
theorem dropped_record_behaviour (selected_fields : List String)
    (pre post : List Rec) (bad : Rec)
    (hpre : ∀ r ∈ pre, qrOk r selected_fields = true)
    (hpost : ∀ r ∈ post, qrOk r selected_fields = true)
    (hbad : qrOk bad selected_fields = false) :
    (∀ b, processRecord selected_fields b bad = preQRElems bad)
    ∧ preQRElems bad ≠ []
    ∧ numPages (buildElements selected_fields (pre ++ bad :: post))
        = if post.isEmpty then pre.length + 1 else pre.length + post.length := by
  refine ⟨fun b => processRecord_err selected_fields b bad hbad,
    preQRElems_ne_nil bad, ?_⟩
  have hne : pre ++ bad :: post ≠ [] := by
    intro hc
    rcases List.append_eq_nil.mp hc with ⟨-, h2⟩
    exact List.cons_ne_nil bad post h2
  unfold numPages
  rw [if_neg (by simpa using buildElements_ne_nil selected_fields (pre ++ bad :: post) hne),
    single_failure_count selected_fields pre post bad hpre hpost hbad]
  cases post with
  | nil => simp
  | cons p ps =>
    simp only [List.isEmpty_cons, Bool.false_eq_true, if_false, List.length_cons]
    omega

theorem dropped_record_behaviour_witness :
    (∀ r ∈ [goodRecord], qrOk r ["X"] = true)
    ∧ qrOk badRecord ["X"] = false
    ∧ preQRElems badRecord ≠ []
    ∧ numPages (buildElements ["X"] ([goodRecord] ++ badRecord :: [])) = 2 := by
  have h := dropped_record_behaviour ["X"] [goodRecord] [] badRecord
    (by decide) (by simp) badRecord_qr_fails
  refine ⟨by decide, badRecord_qr_fails, h.2.1, ?_⟩
  simpa using h.2.2

/-- C3 (counterexample): with two records of which the second and last is
unencodable, the failing record's pre-failure elements are appended (not
dropped) and the artifact has N = 2 pages instead of the claimed N−1 = 1. -/
theorem dropped_record_claim_false :
    numPages (buildElements ["X"] [goodRecord, badRecord]) = 2
    ∧ processRecord ["X"] true badRecord ≠ [] := by
  have hgood : qrOk goodRecord ["X"] = true := by decide
  constructor
  · rw [show buildElements ["X"] [goodRecord, badRecord]
        = processRecord ["X"] false goodRecord ++ processRecord ["X"] true badRecord
      from rfl]
    rw [processRecord_ok ["X"] false goodRecord hgood,
      processRecord_err ["X"] true badRecord badRecord_qr_fails]
    unfold numPages
    rw [if_neg ?hne]
    case hne =>
      intro hc
      rw [List.isEmpty_eq_true] at hc
      rcases List.append_eq_nil.mp hc with ⟨h1, -⟩
      rcases List.append_eq_nil.mp h1 with ⟨hsp, -⟩
      exact successPage_ne_nil goodRecord ["X"] hsp
    rw [List.countP_append, List.countP_append,
      break_count_zero _ (successPage_no_break goodRecord ["X"]),
      preQR_break_count]
    simp [Element.isBreak, List.countP_cons]
  · rw [processRecord_err ["X"] true badRecord badRecord_qr_fails]
    exact preQRElems_ne_nil badRecord

/-- C5: a payload larger than the configured capacity makes the QR step
fail with the overflow error; there is no retry with other settings — the
result is the error, whatever box size was requested. -/
theorem payload_overflow_errors (record : Rec) (selected_fields : List String)
    (separator : String) (box_size : Nat)
    (h : QR_CAPACITY_BYTES_L
      < (concatenated_data record selected_fields separator).utf8ByteSize) :
    generate_qr_concatenated record selected_fields separator box_size
      = .error "DataOverflowError" := by
  unfold generate_qr_concatenated
  rw [if_neg (by omega)]

theorem payload_overflow_errors_witness :
    QR_CAPACITY_BYTES_L < (concatenated_data badRecord ["X"] "|").utf8ByteSize
    ∧ generate_qr_concatenated badRecord ["X"] "|" 10 = .error "DataOverflowError" := by
  have hs := badPayload_size
  refine ⟨by rw [hs]; decide, ?_⟩
  exact payload_overflow_errors badRecord ["X"] "|" 10 (by rw [hs]; decide)

/-- C6: the final document build is atomic for the caller — when the
external build step fails, `generate_pdf` surfaces exactly that failure
and returns no artifact, and an artifact comes back only when the build
succeeded on the full element list. -/
theorem build_failure_propagates {π : Type} (build : List Element → Except String π)
    (records : List Rec) (selected_fields : List String) :
    (∀ e, build (buildElements selected_fields records) = .error e →
        generate_pdf build records selected_fields = .error e)
    ∧ ∀ a, generate_pdf build records selected_fields = .ok a →
        build (buildElements selected_fields records) = .ok a := by
  constructor
  · intro e h
    unfold generate_pdf
    rw [h]
  · intro a h
    unfold generate_pdf at h
    cases hb : build (buildElements selected_fields records) with
    | error e =>
      rw [hb] at h
      simp at h
    | ok b =>
      rw [hb] at h
      simp only at h
      exact h

theorem build_failure_propagates_witness :
    ((fun _ : List Element => (Except.error "disk full" : Except String Unit))
        (buildElements [] []) = Except.error "disk full")
    ∧ generate_pdf (fun _ : List Element => (Except.error "disk full" : Except String Unit))
        [] [] = Except.error "disk full" := by
  refine ⟨rfl, ?_⟩
  exact (build_failure_propagates
    (fun _ : List Element => (Except.error "disk full" : Except String Unit)) [] []).1
    "disk full" rfl

theorem tableRows_eq (record : Rec) (selected_fields : List String) :
    tableRows record selected_fields
      = (selected_fields.filter (fun f => (lookup? record f).isSome)).map
          (fun f => (rowLabel f, getStr record f))
        ++ (record.filter
              (fun kv => ! selected_fields.contains kv.1 && kv.1 != "nombre")).map
            (fun kv => (rowLabel kv.1, kv.2)) := by
  unfold tableRows
  congr 1
  induction selected_fields with
  | nil => rfl
  | cons f fs ih =>
    cases hf : lookup? record f with
    | none => simp [List.filterMap_cons, List.filter_cons, hf, ih]
    | some v => simp [List.filterMap_cons, List.filter_cons, hf, ih, getStr]

/-- C8: on the record with fields A, B, C, D (and a reserved `nombre`
field) under selection [C, A], the attribute rows are C, A in selection
order, then B, D in record order, excluding the title field; in general
the table lists the selected fields present in the record first, in
selection order, followed by the remaining non-selected, non-`nombre`
fields in record order; and a record with zero table rows still produces a
full page with no table element inserted. -/
theorem attribute_table_order :
    tableRows exampleRecordC8 ["C", "A"]
        = [(rowLabel "C", "3"), (rowLabel "A", "1"),
           (rowLabel "B", "2"), (rowLabel "D", "4")]
    ∧ (∀ (record : Rec) (selected_fields : List String),
        tableRows record selected_fields
          = (selected_fields.filter (fun f => (lookup? record f).isSome)).map
              (fun f => (rowLabel f, getStr record f))
            ++ (record.filter
                  (fun kv => ! selected_fields.contains kv.1 && kv.1 != "nombre")).map
                (fun kv => (rowLabel kv.1, kv.2)))
    ∧ ∀ (record : Rec) (selected_fields : List String) (isLast : Bool),
        tableRows record selected_fields = [] → qrOk record selected_fields = true →
          (∀ rows, Element.table rows ∉ processRecord selected_fields isLast record)
          ∧ processRecord selected_fields isLast record ≠ [] := by
  refine ⟨by decide, tableRows_eq, ?_⟩
  intro record selected_fields isLast htr hok
  rw [processRecord_ok selected_fields isLast record hok]
  constructor
  · intro rows hmem
    unfold successPage preQRElems at hmem
    by_cases h1 : (lookup? record "nombre").isSome <;>
      by_cases h2 : isLast <;>
        simp [h1, h2, htr] at hmem
  · intro hc
    rcases List.append_eq_nil.mp hc with ⟨h1, -⟩
    exact successPage_ne_nil record selected_fields h1

theorem attribute_table_order_witness :
    (tableRows [("nombre", "X")] ["Z"] = [] ∧ qrOk [("nombre", "X")] ["Z"] = true)
    ∧ (∀ rows, Element.table rows ∉ processRecord ["Z"] true [("nombre", "X")])
    ∧ processRecord ["Z"] true [("nombre", "X")] ≠ [] := by
  refine ⟨⟨by decide, by decide⟩, ?_⟩
  exact attribute_table_order.2.2 [("nombre", "X")] ["Z"] true (by decide) (by decide)
